import Mathlib

/-!
# Verification of the resvg compositing core (`crates/resvg/src/render.rs`)

Shallow embedding of the recursive tree-walking compositor: entry setup,
node dispatch, and the group-layer isolation algorithm.

Modelling conventions:
* `f64`/`f32` arithmetic is modelled exactly over `ℚ`; the `as f32`/`as i32`/
  `as u32` casts of the source are modelled as exact conversions.
* Machine integers are `Int`/`Nat` (no wrap-around is exercised by the code
  under the spec's intended ranges).
* Fallible calls (`Option` in Rust, `?`, `unwrap`) are `Option` here.
* Helpers of this repository that live outside `src/` (crate::geom,
  crate::tree, crate::path, and the usvg/tiny_skia geometry they re-export)
  are modelled from the spec; each such definition says so in its doc comment.
-/

set_option linter.unusedVariables false
set_option linter.unnecessarySeqFocus false
set_option maxRecDepth 8192

namespace Resvg

/-- A device pixel: color and alpha, exact rationals standing in for the
device color math. -/
structure Pixel where
  color : ℚ
  alpha : ℚ
deriving DecidableEq

/-- tiny_skia affine transform with rows (sx kx tx / ky sy ty); the f32
components are modelled over `ℚ`. -/
structure Transform where
  sx : ℚ
  ky : ℚ
  kx : ℚ
  sy : ℚ
  tx : ℚ
  ty : ℚ
deriving DecidableEq

def Transform.identity : Transform := ⟨1, 0, 0, 1, 0, 0⟩

/-- tiny_skia `Transform::default()` is the identity. -/
def Transform.default : Transform := Transform.identity

def Transform.from_translate (tx ty : ℚ) : Transform := ⟨1, 0, 0, 1, tx, ty⟩

/-- Apply the affine map to a point. -/
def Transform.apply (t : Transform) (p : ℚ × ℚ) : ℚ × ℚ :=
  (t.sx * p.1 + t.kx * p.2 + t.tx, t.ky * p.1 + t.sy * p.2 + t.ty)

/-- tiny_skia `pre_concat`: `t.pre_concat u` maps a point through `u` first,
then through `t`. -/
def Transform.pre_concat (t u : Transform) : Transform :=
  ⟨t.sx * u.sx + t.kx * u.ky,
   t.ky * u.sx + t.sy * u.ky,
   t.sx * u.kx + t.kx * u.sy,
   t.ky * u.kx + t.sy * u.sy,
   t.sx * u.tx + t.kx * u.ty + t.tx,
   t.ky * u.tx + t.sy * u.ty + t.ty⟩

def Transform.det (t : Transform) : ℚ := t.sx * t.sy - t.kx * t.ky

/-- usvg `PathBbox`: an object-space bounding box; may be degenerate
(zero width or height). -/
structure PathBbox where
  x : ℚ
  y : ℚ
  width : ℚ
  height : ℚ
deriving DecidableEq

/-- A floating-point rectangle with positive size (usvg/tiny_skia `Rect`). -/
structure Rect where
  x : ℚ
  y : ℚ
  width : ℚ
  height : ℚ
deriving DecidableEq

/-- Modelled from the spec: tiny_skia `Rect::from_xywh` fails on a
non-positive size (the `?` at render.rs line 208). -/
def Rect.from_xywh (x y w h : ℚ) : Option Rect :=
  if 0 < w ∧ 0 < h then some ⟨x, y, w, h⟩ else none

/-- Integer size (crate::geom `IntSize`, not under src/): the constructor
requires positive dimensions, hence the `Option`. -/
structure IntSize where
  width : Nat
  height : Nat
deriving DecidableEq

/-- Modelled from the spec: `IntSize::new` fails on a zero dimension. -/
def IntSize.new (w h : Nat) : Option IntSize :=
  if 0 < w ∧ 0 < h then some ⟨w, h⟩ else none

/-- Integer rectangle (crate::geom `IntRect`, not under src/); width/height
are the `u32` fields. -/
structure IntRect where
  x : Int
  y : Int
  width : Nat
  height : Nat
deriving DecidableEq

/-- Modelled from the spec: `IntRect::new` fails on a zero dimension. -/
def IntRect.new (x y : Int) (w h : Nat) : Option IntRect :=
  if 0 < w ∧ 0 < h then some ⟨x, y, w, h⟩ else none

def IntRect.left (r : IntRect) : Int := r.x

def IntRect.top (r : IntRect) : Int := r.y

def IntRect.right (r : IntRect) : Int := r.x + r.width

def IntRect.bottom (r : IntRect) : Int := r.y + r.height

/-- Modelled from the spec: "clamp to Context's region bound"
(crate::geom `fit_to_rect`, not under src/). Each edge of `r` is clamped
into the bound, so the result is contained in `bounds`. -/
def IntRect.fit_to_rect (r bounds : IntRect) : IntRect :=
  let left := min (max r.left bounds.left) bounds.right
  let top := min (max r.top bounds.top) bounds.bottom
  let right := max (min r.right bounds.right) bounds.left
  let bottom := max (min r.bottom bounds.bottom) bounds.top
  ⟨left, top, (right - left).toNat, (bottom - top).toNat⟩

/-- `outer` contains `inner`. -/
def IntRect.contains (outer inner : IntRect) : Prop :=
  outer.x ≤ inner.x ∧ outer.y ≤ inner.y ∧
  inner.x + inner.width ≤ outer.x + outer.width ∧
  inner.y + inner.height ≤ outer.y + outer.height

/-- Modelled from the spec: "round the transformed bbox outward to an
enclosing integer rectangle" (crate::geom `to_int_rect_round_out`,
not under src/). -/
def Rect.to_int_rect_round_out (r : Rect) : IntRect :=
  ⟨⌊r.x⌋, ⌊r.y⌋,
   (⌈r.x + r.width⌉ - ⌊r.x⌋).toNat,
   (⌈r.y + r.height⌉ - ⌊r.y⌋).toNat⟩

/-- The exact value of `f64::MAX`, as a rational. -/
def f64_max : ℚ := 2 ^ 1024 - 2 ^ 971

/-- Modelled from the spec: the "empty" sentinel bbox
(usvg `PathBbox::new_bbox`, not under src/). -/
def PathBbox.new_bbox : PathBbox := ⟨f64_max, f64_max, 1, 1⟩

/-- usvg `FuzzyEq`, modelled as exact equality over the exact-arithmetic
number model. -/
def PathBbox.fuzzy_eq (a b : PathBbox) : Bool := decide (a = b)

/-- Modelled from the spec (§4.3 step 4): "transform the bbox into device
space; if the transform is degenerate (non-invertible or zero-area result),
abort this subtree only" (usvg `PathBbox::transform`, not under src/).
The transformed box is the bounding box of the four mapped corners. -/
def PathBbox.transform (b : PathBbox) (t : Transform) : Option PathBbox :=
  if t.det = 0 then none
  else
    let p1 := t.apply (b.x, b.y)
    let p2 := t.apply (b.x + b.width, b.y)
    let p3 := t.apply (b.x, b.y + b.height)
    let p4 := t.apply (b.x + b.width, b.y + b.height)
    let minx := min (min p1.1 p2.1) (min p3.1 p4.1)
    let maxx := max (max p1.1 p2.1) (max p3.1 p4.1)
    let miny := min (min p1.2 p2.2) (min p3.2 p4.2)
    let maxy := max (max p1.2 p2.2) (max p3.2 p4.2)
    if maxx - minx = 0 ∨ maxy - miny = 0 then none
    else some ⟨minx, miny, maxx - minx, maxy - miny⟩

/-- Modelled from the spec: usvg `PathBbox::to_rect` fails on a degenerate
(non-positive-size) box (the `?` at render.rs line 119). -/
def PathBbox.to_rect (b : PathBbox) : Option Rect :=
  if 0 < b.width ∧ 0 < b.height then some ⟨b.x, b.y, b.width, b.height⟩ else none

/-- A resolved paint (crate::paint_server `Paint`, not under src/): per the
spec glossary "a resolved fill/stroke source ... ready for rasterization",
modelled by the color it rasterizes to. -/
structure Paint where
  color : ℚ
deriving DecidableEq

inductive FillRule where
  | winding
  | evenOdd
deriving DecidableEq

/-- tiny_skia blend modes: SourceOver (the "Normal" mode) plus the remaining
modes, which the compositor only passes through. -/
inductive BlendMode where
  | sourceOver
  | other (code : Nat)
deriving DecidableEq

inductive FilterQuality where
  | nearest
  | bilinear
  | bicubic
deriving DecidableEq

/-- tiny_skia `PixmapPaint` (render.rs lines 173-177). -/
structure PixmapPaint where
  opacity : ℚ
  blend_mode : BlendMode
  quality : FilterQuality
deriving DecidableEq

/-- tiny_skia `Path`: the compositor itself only ever builds rectangle paths
(`PathBuilder::from_rect`); leaf-node paths are opaque collaborator data. -/
inductive Path where
  | rect (r : Rect)
deriving DecidableEq

def PathBuilder.from_rect (r : Rect) : Path := Path.rect r

/-- crate::path `FillPath` (not under src/): the fields the compositor
constructs at render.rs lines 211-217. -/
structure FillPath where
  transform : Transform
  paint : Paint
  rule : FillRule
  anti_alias : Bool
  path : Path
deriving DecidableEq

/-- Opaque stroke-path descriptor (external collaborator data, spec §6). -/
structure StrokePath where
  id : Nat

/-- Opaque image descriptor (external collaborator data, spec §6). -/
structure Image where
  id : Nat

/-- Opaque filter-effect descriptor (external collaborator data, spec §6). -/
structure Filter where
  id : Nat
deriving DecidableEq

/-- Opaque clip-path descriptor (external collaborator data, spec §6). -/
structure ClipPath where
  id : Nat

/-- Opaque mask descriptor (external collaborator data, spec §6). -/
structure Mask where
  id : Nat

/-- The non-recursive fields of crate::tree `Group` (spec §3). -/
structure GroupData where
  transform : Transform
  opacity : ℚ
  blend_mode : BlendMode
  bbox : PathBbox
  clip_path : Option ClipPath
  mask : Option Mask
  filters : List Filter
  filter_fill : Option Paint
  filter_stroke : Option Paint

/-- crate::tree `Node`: closed variant over Group/FillPath/StrokePath/Image;
a group owns its ordered children. -/
inductive Node where
  | group (g : GroupData) (children : List Node)
  | fillPath (p : FillPath)
  | strokePath (p : StrokePath)
  | image (i : Image)

/-- Modelled from the spec: `Group::is_transform_only` (crate::tree, not
under src/) — "true iff opacity=1, blend=Normal, no clip/mask/filters". -/
def GroupData.is_transform_only (g : GroupData) : Bool :=
  decide (g.opacity = 1) && decide (g.blend_mode = BlendMode.sourceOver) &&
  g.clip_path.isNone && g.mask.isNone && g.filters.isEmpty

/-- A pixel buffer: tiny_skia `Pixmap`/`PixmapMut`, with the pixel store as a
coordinate function. -/
structure Pixmap where
  width : Nat
  height : Nat
  data : Nat → Nat → Pixel

def Pixel.transparent : Pixel := ⟨0, 0⟩

/-- An all-transparent buffer of the given size. -/
def Pixmap.blank (w h : Nat) : Pixmap := ⟨w, h, fun _ _ => Pixel.transparent⟩

/-- tiny_skia `Pixmap::new`: fails (returns `None`) on a zero dimension;
a fresh pixmap is fully transparent. -/
def Pixmap.new (w h : Nat) : Option Pixmap :=
  if 0 < w ∧ 0 < h then some (Pixmap.blank w h) else none

/-- Modelled from the spec: device compositing of one source pixel over a
destination pixel under a paint opacity (tiny_skia internals, external to the
core). The source-over algebra is used uniformly for every blend mode; no
claim examines the pixel math of a non-Normal mode. -/
def composite (blend : BlendMode) (opacity : ℚ) (s d : Pixel) : Pixel :=
  let sa := opacity * s.alpha
  ⟨s.color * sa + d.color * (1 - sa), sa + d.alpha * (1 - sa)⟩

/-- Modelled from the spec (§4.3 step 12): tiny_skia `draw_pixmap` — composite
`src` onto `dst` at integer offset `(ox, oy)` with the paint's opacity and
blend mode. The transform and mask arguments are kept for signature fidelity;
the model implements the identity-transform, no-mask case, the only one the
compositor uses (nearest sampling is exact there). -/
def Pixmap.draw_pixmap (dst : Pixmap) (ox oy : Int) (src : Pixmap)
    (paint : PixmapPaint) (ts : Transform) (mask : Option Unit) : Pixmap :=
  ⟨dst.width, dst.height, fun x y =>
    if ox ≤ (x : Int) ∧ (x : Int) < ox + src.width ∧
       oy ≤ (y : Int) ∧ (y : Int) < oy + src.height ∧
       x < dst.width ∧ y < dst.height then
      composite paint.blend_mode paint.opacity
        (src.data ((x : Int) - ox).toNat ((y : Int) - oy).toNat) (dst.data x y)
    else dst.data x y⟩

/-- The render-call-scoped context (render.rs lines 10-12). -/
structure Context where
  max_bbox : IntRect

/-- Modelled from the spec: the path-rasterization collaborator
(crate::path `render_fill_path`, not under src/). Spec §6: "(path, paint,
fill rule, anti-alias flag, transform, blend mode, target buffer) → mutates
buffer"; resvg composes the accumulated transform with the path's own
transform. A pixel is covered when its unit square lies inside the
axis-aligned bounding box of the mapped rectangle (exact for the
axis-aligned transforms the verified claims exercise); covered pixels
receive the paint at full source alpha. -/
def render_fill_path (p : FillPath) (blend : BlendMode) (ctx : Context)
    (transform : Transform) (pm : Pixmap) : Pixmap :=
  let full := transform.pre_concat p.transform
  match p.path with
  | Path.rect r =>
    let p1 := full.apply (r.x, r.y)
    let p2 := full.apply (r.x + r.width, r.y)
    let p3 := full.apply (r.x, r.y + r.height)
    let p4 := full.apply (r.x + r.width, r.y + r.height)
    let minx := min (min p1.1 p2.1) (min p3.1 p4.1)
    let maxx := max (max p1.1 p2.1) (max p3.1 p4.1)
    let miny := min (min p1.2 p2.2) (min p3.2 p4.2)
    let maxy := max (max p1.2 p2.2) (max p3.2 p4.2)
    ⟨pm.width, pm.height, fun x y =>
      if x < pm.width ∧ y < pm.height ∧
         minx ≤ (x : ℚ) ∧ (x : ℚ) + 1 ≤ maxx ∧
         miny ≤ (y : ℚ) ∧ (y : ℚ) + 1 ≤ maxy then
        composite blend 1 ⟨p.paint.color, 1⟩ (pm.data x y)
      else pm.data x y⟩

/-- The SVG size of the tree (usvg `Size`). -/
structure Size where
  width : ℚ
  height : ℚ

/-- usvg `ViewBox`: rectangle plus an opaque aspect-ratio policy. -/
structure ViewBox where
  rect : Rect
  aspect : Nat

/-- crate::tree `Tree`: root view box, target size, ordered children. -/
structure Tree where
  size : Size
  view_box : ViewBox
  children : List Node

/-- The external collaborators of spec §6 — stroke/image drawing, filter,
clip and mask application, and usvg's view-box-fit transform — as an
abstract bundle of buffer-mutating functions. The compositor theorems hold
for every bundle. -/
structure Collab where
  render_stroke_path : StrokePath → BlendMode → Context → Transform → Pixmap → Pixmap
  render_image : Image → Transform → Pixmap → Pixmap
  filter_apply : Filter → Transform → Option Pixmap → Option Pixmap → Pixmap → Pixmap
  clip_apply : ClipPath → Transform → Pixmap → Pixmap
  mask_apply : Mask → Context → Transform → Pixmap → Pixmap
  view_box_to_transform : Rect → Nat → Size → Transform

/-- Warnings the compositor can log (render.rs lines 92 and 147). -/
inductive Warning where
  | invalidGroupBbox
  | groupAllocFailed
deriving DecidableEq

/-- Instrumentation threaded through the render: the warnings logged so far
and the number of group sub-layers allocated. -/
structure Log where
  warnings : List Warning
  layersAlloc : Nat
deriving DecidableEq

def Log.warn (l : Log) (w : Warning) : Log := ⟨w :: l.warnings, l.layersAlloc⟩

def Log.allocLayer (l : Log) : Log := ⟨l.warnings, l.layersAlloc + 1⟩

/-- render.rs lines 107-130: the integer layer rectangle of an isolated
group — no filters: floor/ceil with the fixed 2px pad, then clamp; filters:
outward rounding, then clamp. -/
def group_layer_ibbox (filters : List Filter) (bbox : PathBbox)
    (max_bbox : IntRect) : Option IntRect :=
  let pre : Option IntRect :=
    if filters.isEmpty then
      IntRect.new (⌊bbox.x⌋ - 2) (⌊bbox.y⌋ - 2)
        (⌈bbox.width⌉.toNat + 4) (⌈bbox.height⌉.toNat + 4)
    else
      match bbox.to_rect with
      | none => none
      | some r => some ((r.to_int_rect_round_out).fit_to_rect max_bbox)
  match pre with
  | none => none
  | some ibbox => some (if filters.isEmpty then ibbox.fit_to_rect max_bbox else ibbox)

/-- render.rs lines 132-142: the sub-pixel shift; the `as f32` casts are
modelled as exact. -/
def sub_pixel_shift (bbox : PathBbox) (ibbox : IntRect) : Transform :=
  let dx0 := bbox.x
  let dy0 := bbox.y
  let dx := dx0 - (bbox.x - (ibbox.x : ℚ))
  let dy := dy0 - (bbox.y - (ibbox.y : ℚ))
  Transform.from_translate (-dx) (-dy)

/-- The fill path built by `prepare_filter_paint` (render.rs lines 211-217):
identity transform, winding rule, anti-aliased, full-rectangle path. -/
def filter_paint_fill_path (paint : Paint) (r : Rect) : FillPath :=
  ⟨Transform.default, paint, FillRule.winding, true, PathBuilder.from_rect r⟩

/-- render.rs lines 198-228: renders the `FillPaint`/`StrokePaint` filter
input. The `.unwrap()` on `Pixmap::new` is modelled with a blank default of
the same size; the safety theorem for C6 shows the unwrapped option is
`some` for every genuinely constructible pixmap (positive dimensions). -/
def prepare_filter_paint (paint : Option Paint) (ctx : Context)
    (pixmap : Pixmap) : Option Pixmap :=
  match paint with
  | none => none
  | some p =>
    let sub_pixmap := (Pixmap.new pixmap.width pixmap.height).getD
      (Pixmap.blank pixmap.width pixmap.height)
    match Rect.from_xywh 0 0 (pixmap.width : ℚ) (pixmap.height : ℚ) with
    | none => none
    | some rect =>
      some (render_fill_path (filter_paint_fill_path p rect) BlendMode.sourceOver ctx
        Transform.default sub_pixmap)

lemma GroupData.sizeOf_pos (g : GroupData) : 0 < sizeOf g := by
  cases g; simp

mutual

/-- render.rs lines 51-83: node dispatch. A `None` from `render_group` is
dropped; the destination is the unchanged `pm` in that case. -/
def render_node (node : Node) (collab : Collab) (ctx : Context)
    (transform : Transform) (pm : Pixmap) (log : Log) : Pixmap × Log :=
  match node with
  | Node.group g children =>
    match render_group g children collab ctx transform pm log with
    | (some pm2, log2) => (pm2, log2)
    | (none, log2) => (pm, log2)
  | Node.fillPath p => (render_fill_path p BlendMode.sourceOver ctx transform pm, log)
  | Node.strokePath p => (collab.render_stroke_path p BlendMode.sourceOver ctx transform pm, log)
  | Node.image i => (collab.render_image i transform pm, log)
termination_by sizeOf node
decreasing_by
  have := GroupData.sizeOf_pos g
  simp_wf
  omega

/-- render.rs lines 40-49: visit the nodes strictly in order. -/
def render_nodes (children : List Node) (collab : Collab) (ctx : Context)
    (transform : Transform) (pm : Pixmap) (log : Log) : Pixmap × Log :=
  match children with
  | [] => (pm, log)
  | n :: rest =>
    let r := render_node n collab ctx transform pm log
    render_nodes rest collab ctx transform r.1 r.2
termination_by sizeOf children

/-- render.rs lines 85-189: the group layer compositor. Returns the updated
destination (or `none` for an early exit, in which case the destination is
untouched) together with the log. -/
def render_group (g : GroupData) (children : List Node) (collab : Collab)
    (ctx : Context) (transform0 : Transform) (pm : Pixmap) (log : Log) :
    Option Pixmap × Log :=
  if PathBbox.fuzzy_eq g.bbox PathBbox.new_bbox then
    (none, log.warn Warning.invalidGroupBbox)
  else
    let transform := transform0.pre_concat g.transform
    if g.is_transform_only then
      let r := render_nodes children collab ctx transform pm log
      (some r.1, r.2)
    else
      match PathBbox.transform g.bbox transform with
      | none => (none, log)
      | some bbox =>
        match group_layer_ibbox g.filters bbox ctx.max_bbox with
        | none => (none, log)
        | some ibbox =>
          let transform2 := (sub_pixel_shift bbox ibbox).pre_concat transform
          match Pixmap.new ibbox.width ibbox.height with
          | none => (none, log.warn Warning.groupAllocFailed)
          | some sub0 =>
            let r := render_nodes children collab ctx transform2 sub0 log.allocLayer
            let sub1 := r.1
            let sub2 :=
              if g.filters.isEmpty then sub1
              else
                let fill_paint := prepare_filter_paint g.filter_fill ctx sub1
                let stroke_paint := prepare_filter_paint g.filter_stroke ctx sub1
                g.filters.foldl
                  (fun acc f => collab.filter_apply f transform2 fill_paint stroke_paint acc)
                  sub1
            let sub3 :=
              match g.clip_path with
              | some cp => collab.clip_apply cp transform2 sub2
              | none => sub2
            let sub4 :=
              match g.mask with
              | some m => collab.mask_apply m ctx transform2 sub3
              | none => sub3
            let paint : PixmapPaint := ⟨g.opacity, g.blend_mode, FilterQuality.nearest⟩
            (some (pm.draw_pixmap ibbox.x ibbox.y sub4 paint Transform.identity none), r.2)
termination_by sizeOf children + 1

end

/-- render.rs lines 14-38: the render entry point. The two `.unwrap()`s are
modelled as `Option` binds; C6's theorem shows they are `some` for every
real target buffer (positive dimensions). The usvg transform conversions
(`to_native`/`from_native`) are identities in this model. -/
def Tree.render (self : Tree) (collab : Collab) (transform : Transform)
    (pixmap : Pixmap) (log : Log) : Option (Pixmap × Log) :=
  match IntSize.new pixmap.width pixmap.height with
  | none => none
  | some target_size =>
    match IntRect.new
      (-(target_size.width : Int) * 2) (-(target_size.height : Int) * 2)
      (target_size.width * 4) (target_size.height * 4) with
    | none => none
    | some max_bbox =>
      let ts := collab.view_box_to_transform self.view_box.rect self.view_box.aspect self.size
      let root_transform := transform.pre_concat ts
      let ctx : Context := ⟨max_bbox⟩
      some (render_nodes self.children collab ctx root_transform pixmap log)

/-! ## Shared helper lemmas and concrete instances for witnesses -/

/-- A trivial collaborator bundle for concrete witness evaluations. -/
def trivCollab : Collab :=
  ⟨fun _ _ _ _ pm => pm, fun _ _ pm => pm, fun _ _ _ _ pm => pm,
   fun _ _ pm => pm, fun _ _ _ pm => pm, fun _ _ _ => Transform.identity⟩

/-- A concrete context whose region bound easily contains the witness boxes. -/
def ctx0 : Context := ⟨⟨-200, -200, 800, 800⟩⟩

/-- A concrete 100×100 destination buffer. -/
def pm0 : Pixmap := Pixmap.blank 100 100

/-- The empty log. -/
def log0 : Log := ⟨[], 0⟩

lemma fuzzy_eq_false_of_x_ne (a b : PathBbox) (h : a.x ≠ b.x) :
    PathBbox.fuzzy_eq a b = false := by
  simp only [PathBbox.fuzzy_eq, decide_eq_false_iff_not]
  intro hab
  exact h (by rw [hab])

lemma fuzzy_eq_self (a : PathBbox) : PathBbox.fuzzy_eq a a = true := by
  simp [PathBbox.fuzzy_eq]

lemma f64_max_pos : 0 < f64_max := by
  have h : (2 : ℚ) ^ 971 < 2 ^ 1024 := by
    have := pow_lt_pow_right₀ (a := (2 : ℚ)) (by norm_num) (show 971 < 1024 by norm_num)
    exact this
  have h2 : (0 : ℚ) < 2 ^ 971 := by positivity
  unfold f64_max
  linarith

lemma unit_bbox_not_sentinel :
    PathBbox.fuzzy_eq ⟨0, 0, 1, 1⟩ PathBbox.new_bbox = false := by
  refine fuzzy_eq_false_of_x_ne _ _ ?_
  show (0 : ℚ) ≠ f64_max
  exact ne_of_lt f64_max_pos

/-! ## Claims -/

/-- C1: for every group with opacity=1, blend mode Normal, and no clip path,
mask, or filters (and a non-sentinel bbox, the case the preceding check has
already routed away), rendering the group is literally rendering its
children into the destination with the accumulated transform pre-concatenated
with the group's local transform: same pixels, same log, and in particular no
intermediate layer allocated. -/
theorem group_fast_path_equiv (g : GroupData) (children : List Node)
    (collab : Collab) (ctx : Context) (ts : Transform) (pm : Pixmap) (log : Log)
    (hbb : PathBbox.fuzzy_eq g.bbox PathBbox.new_bbox = false)
    (hfast : g.is_transform_only = true) :
    render_group g children collab ctx ts pm log =
      (some (render_nodes children collab ctx (ts.pre_concat g.transform) pm log).1,
       (render_nodes children collab ctx (ts.pre_concat g.transform) pm log).2) ∧
    ((render_group g children collab ctx ts pm log).2).layersAlloc =
      ((render_nodes children collab ctx (ts.pre_concat g.transform) pm log).2).layersAlloc := by
  have h : render_group g children collab ctx ts pm log =
      (some (render_nodes children collab ctx (ts.pre_concat g.transform) pm log).1,
       (render_nodes children collab ctx (ts.pre_concat g.transform) pm log).2) := by
    unfold render_group
    simp only [hbb, hfast, Bool.false_eq_true, if_false, if_true]
  exact ⟨h, by rw [h]⟩

/-- Witness for C1 at a concrete transform-only group. -/
theorem group_fast_path_equiv_witness :
    PathBbox.fuzzy_eq
      (GroupData.mk Transform.identity 1 BlendMode.sourceOver ⟨0, 0, 1, 1⟩
        none none [] none none).bbox PathBbox.new_bbox = false ∧
    (GroupData.mk Transform.identity 1 BlendMode.sourceOver ⟨0, 0, 1, 1⟩
        none none [] none none).is_transform_only = true ∧
    (render_group
        (GroupData.mk Transform.identity 1 BlendMode.sourceOver ⟨0, 0, 1, 1⟩
          none none [] none none) [] trivCollab ctx0 Transform.identity pm0 log0 =
      (some (render_nodes [] trivCollab ctx0
          (Transform.identity.pre_concat Transform.identity) pm0 log0).1,
       (render_nodes [] trivCollab ctx0
          (Transform.identity.pre_concat Transform.identity) pm0 log0).2) ∧
     ((render_group
        (GroupData.mk Transform.identity 1 BlendMode.sourceOver ⟨0, 0, 1, 1⟩
          none none [] none none) [] trivCollab ctx0 Transform.identity pm0 log0).2).layersAlloc =
      ((render_nodes [] trivCollab ctx0
          (Transform.identity.pre_concat Transform.identity) pm0 log0).2).layersAlloc) :=
  ⟨unit_bbox_not_sentinel, by simp [GroupData.is_transform_only],
   group_fast_path_equiv _ _ _ _ _ _ _ unit_bbox_not_sentinel
     (by simp [GroupData.is_transform_only])⟩

/-- `ir` encloses the floating-point rectangle `r`. -/
def IntRect.encloses (ir : IntRect) (r : Rect) : Prop :=
  (ir.x : ℚ) ≤ r.x ∧ (ir.y : ℚ) ≤ r.y ∧
  r.x + r.width ≤ ((ir.x + ir.width : Int) : ℚ) ∧
  r.y + r.height ≤ ((ir.y + ir.height : Int) : ℚ)

/-- C2: for a group with a non-empty filter list and a valid transformed
bbox, the integer layer rectangle is the outward rounding of the transformed
bbox — an enclosing integer rectangle, with no 2-pixel pad anywhere — then
clamped to the region bound. -/
theorem filtered_layer_rect (f : Filter) (fs : List Filter) (bbox : PathBbox)
    (mb : IntRect) (r : Rect) (hr : bbox.to_rect = some r) :
    group_layer_ibbox (f :: fs) bbox mb =
      some ((r.to_int_rect_round_out).fit_to_rect mb) ∧
    r.to_int_rect_round_out =
      ⟨⌊r.x⌋, ⌊r.y⌋, (⌈r.x + r.width⌉ - ⌊r.x⌋).toNat,
       (⌈r.y + r.height⌉ - ⌊r.y⌋).toNat⟩ ∧
    (r.to_int_rect_round_out).encloses r := by
  have hpos : 0 < r.width ∧ 0 < r.height := by
    unfold PathBbox.to_rect at hr
    by_cases h : 0 < bbox.width ∧ 0 < bbox.height
    · rw [if_pos h] at hr
      cases hr
      exact h
    · rw [if_neg h] at hr
      cases hr
  refine ⟨?_, rfl, ?_, ?_, ?_, ?_⟩
  · simp [group_layer_ibbox, hr]
  · exact Int.floor_le r.x
  · exact Int.floor_le r.y
  · have h1 : (⌊r.x⌋ : ℚ) ≤ r.x := Int.floor_le r.x
    have h2 : r.x + r.width ≤ (⌈r.x + r.width⌉ : ℚ) := Int.le_ceil _
    have h3 : ⌊r.x⌋ ≤ ⌈r.x + r.width⌉ := by
      have : (⌊r.x⌋ : ℚ) ≤ (⌈r.x + r.width⌉ : ℚ) := by linarith [hpos.1]
      exact_mod_cast this
    have h4 : (⌈r.x + r.width⌉ - ⌊r.x⌋).toNat = ⌈r.x + r.width⌉ - ⌊r.x⌋ :=
      Int.toNat_of_nonneg (by omega)
    show r.x + r.width ≤
      (((Rect.to_int_rect_round_out r).x + (Rect.to_int_rect_round_out r).width : Int) : ℚ)
    simp only [Rect.to_int_rect_round_out, h4]
    push_cast
    linarith
  · have h1 : (⌊r.y⌋ : ℚ) ≤ r.y := Int.floor_le r.y
    have h2 : r.y + r.height ≤ (⌈r.y + r.height⌉ : ℚ) := Int.le_ceil _
    have h3 : ⌊r.y⌋ ≤ ⌈r.y + r.height⌉ := by
      have : (⌊r.y⌋ : ℚ) ≤ (⌈r.y + r.height⌉ : ℚ) := by linarith [hpos.2]
      exact_mod_cast this
    have h4 : (⌈r.y + r.height⌉ - ⌊r.y⌋).toNat = ⌈r.y + r.height⌉ - ⌊r.y⌋ :=
      Int.toNat_of_nonneg (by omega)
    show r.y + r.height ≤
      (((Rect.to_int_rect_round_out r).y + (Rect.to_int_rect_round_out r).height : Int) : ℚ)
    simp only [Rect.to_int_rect_round_out, h4]
    push_cast
    linarith

/-- Witness for C2 at a concrete filtered group bbox. -/
theorem filtered_layer_rect_witness :
    (PathBbox.to_rect ⟨0, 0, 1, 1⟩ = some ⟨0, 0, 1, 1⟩) ∧
    (group_layer_ibbox [⟨0⟩] ⟨0, 0, 1, 1⟩ ⟨-100, -100, 400, 400⟩ =
      some ((Rect.to_int_rect_round_out ⟨0, 0, 1, 1⟩).fit_to_rect ⟨-100, -100, 400, 400⟩) ∧
     Rect.to_int_rect_round_out ⟨0, 0, 1, 1⟩ =
      ⟨⌊(0 : ℚ)⌋, ⌊(0 : ℚ)⌋, (⌈(0 : ℚ) + 1⌉ - ⌊(0 : ℚ)⌋).toNat,
       (⌈(0 : ℚ) + 1⌉ - ⌊(0 : ℚ)⌋).toNat⟩ ∧
     (Rect.to_int_rect_round_out ⟨0, 0, 1, 1⟩).encloses ⟨0, 0, 1, 1⟩) := by
  have hr : PathBbox.to_rect ⟨0, 0, 1, 1⟩ = some ⟨0, 0, 1, 1⟩ := by
    simp [PathBbox.to_rect]
  exact ⟨hr, filtered_layer_rect ⟨0⟩ [] _ _ _ hr⟩

/-- The spec's words for the non-filtered layer rectangle: "expand the
transformed bbox outward 2 device pixels per side, round to an enclosing
integer rectangle, clamp to Context's region bound". -/
def spec_nofilter_ibbox (bbox : PathBbox) (mb : IntRect) : IntRect :=
  (Rect.to_int_rect_round_out
    ⟨bbox.x - 2, bbox.y - 2, bbox.width + 4, bbox.height + 4⟩).fit_to_rect mb

/-- C3 counterexample: at the transformed bbox (x=1/2, y=0, w=1, h=1) the
code's pad-after-floor/ceil rectangle (width ⌈w⌉+4 = 5) differs from the
spec's pad-before-rounding rectangle (width ⌈x+w⌉−⌊x⌋+4 = 6). -/
theorem nofilter_pad_order_counterexample :
    group_layer_ibbox [] ⟨1/2, 0, 1, 1⟩ ⟨-100, -100, 400, 400⟩ ≠
      some (spec_nofilter_ibbox ⟨1/2, 0, 1, 1⟩ ⟨-100, -100, 400, 400⟩) := by
  have hfl : ⌊(1 : ℚ)/2⌋ = 0 := by norm_num
  have hcl : ⌈(1 : ℚ)⌉ = 1 := by norm_num
  have hcode : group_layer_ibbox [] ⟨1/2, 0, 1, 1⟩ ⟨-100, -100, 400, 400⟩ =
      some ⟨-2, -2, 5, 5⟩ := by
    simp only [group_layer_ibbox, List.isEmpty_nil, if_true, IntRect.new, hfl, hcl]
    norm_num
    simp only [IntRect.fit_to_rect, IntRect.left, IntRect.top, IntRect.right,
      IntRect.bottom]
    decide
  have hfl2 : ⌊(1 : ℚ)/2 - 2⌋ = -2 := by
    rw [Int.floor_eq_iff] <;> norm_num
  have hfl3 : ⌊(0 : ℚ) - 2⌋ = -2 := by norm_num
  have hcl2 : ⌈(1 : ℚ)/2 - 2 + (1 + 4)⌉ = 4 := by
    rw [Int.ceil_eq_iff] <;> norm_num
  have hcl3 : ⌈(0 : ℚ) - 2 + (1 + 4)⌉ = 3 := by norm_num
  have hspec : spec_nofilter_ibbox ⟨1/2, 0, 1, 1⟩ ⟨-100, -100, 400, 400⟩ =
      ⟨-2, -2, 6, 5⟩ := by
    simp only [spec_nofilter_ibbox, Rect.to_int_rect_round_out, hfl2, hfl3, hcl2, hcl3]
    simp only [IntRect.fit_to_rect, IntRect.left, IntRect.top, IntRect.right,
      IntRect.bottom]
    decide
  rw [hcode, hspec]
  simp

/-- C3 amended: for a non-filtered group the integer layer rectangle is
(⌊x⌋−2, ⌊y⌋−2, ⌈w⌉+4, ⌈h⌉+4) clamped to the region bound — a fixed 2-pixel
pad applied after flooring the origin and ceiling the size. This equals the
spec's pad-before-rounding rectangle whenever the transformed bbox's x and y
are integers (the counterexample shows it can differ otherwise). -/
theorem nofilter_layer_rect (bbox : PathBbox) (mb : IntRect)
    (hw : 0 ≤ bbox.width) (hh : 0 ≤ bbox.height) :
    group_layer_ibbox [] bbox mb =
      some ((IntRect.mk (⌊bbox.x⌋ - 2) (⌊bbox.y⌋ - 2)
        (⌈bbox.width⌉.toNat + 4) (⌈bbox.height⌉.toNat + 4)).fit_to_rect mb) ∧
    (((⌊bbox.x⌋ : ℚ) = bbox.x) → ((⌊bbox.y⌋ : ℚ) = bbox.y) →
      group_layer_ibbox [] bbox mb = some (spec_nofilter_ibbox bbox mb)) := by
  have hcode : group_layer_ibbox [] bbox mb =
      some ((IntRect.mk (⌊bbox.x⌋ - 2) (⌊bbox.y⌋ - 2)
        (⌈bbox.width⌉.toNat + 4) (⌈bbox.height⌉.toNat + 4)).fit_to_rect mb) := by
    simp [group_layer_ibbox, IntRect.new]
  refine ⟨hcode, fun hx hy => ?_⟩
  rw [hcode]
  congr 2
  have hwceil : 0 ≤ ⌈bbox.width⌉ := Int.ceil_nonneg (by exact_mod_cast hw)
  have hhceil : 0 ≤ ⌈bbox.height⌉ := Int.ceil_nonneg (by exact_mod_cast hh)
  have hfx : ⌊bbox.x - 2⌋ = ⌊bbox.x⌋ - 2 := by
    rw [show (2 : ℚ) = ((2 : ℤ) : ℚ) by norm_num, Int.floor_sub_int]
  have hfy : ⌊bbox.y - 2⌋ = ⌊bbox.y⌋ - 2 := by
    rw [show (2 : ℚ) = ((2 : ℤ) : ℚ) by norm_num, Int.floor_sub_int]
  have hcx : ⌈bbox.x - 2 + (bbox.width + 4)⌉ = ⌈bbox.width⌉ + ⌊bbox.x⌋ + 2 := by
    have : bbox.x - 2 + (bbox.width + 4) = bbox.width + ((⌊bbox.x⌋ + 2 : ℤ) : ℚ) := by
      push_cast
      rw [hx]
      ring
    rw [this, Int.ceil_add_int]
    ring
  have hcy : ⌈bbox.y - 2 + (bbox.height + 4)⌉ = ⌈bbox.height⌉ + ⌊bbox.y⌋ + 2 := by
    have : bbox.y - 2 + (bbox.height + 4) = bbox.height + ((⌊bbox.y⌋ + 2 : ℤ) : ℚ) := by
      push_cast
      rw [hy]
      ring
    rw [this, Int.ceil_add_int]
    ring
  simp only [Rect.to_int_rect_round_out, hfx, hfy, hcx, hcy, IntRect.mk.injEq,
    true_and, and_true]
  omega

/-- Witness for C3's amended claim at an integer-cornered bbox. -/
theorem nofilter_layer_rect_witness :
    (0 : ℚ) ≤ 1 ∧ ((⌊(0 : ℚ)⌋ : ℚ) = 0) ∧
    (group_layer_ibbox [] ⟨0, 0, 1, 1⟩ ⟨-100, -100, 400, 400⟩ =
      some ((IntRect.mk (⌊(0 : ℚ)⌋ - 2) (⌊(0 : ℚ)⌋ - 2)
        (⌈(1 : ℚ)⌉.toNat + 4) (⌈(1 : ℚ)⌉.toNat + 4)).fit_to_rect ⟨-100, -100, 400, 400⟩) ∧
     (((⌊(0 : ℚ)⌋ : ℚ) = 0) → ((⌊(0 : ℚ)⌋ : ℚ) = 0) →
       group_layer_ibbox [] ⟨0, 0, 1, 1⟩ ⟨-100, -100, 400, 400⟩ =
         some (spec_nofilter_ibbox ⟨0, 0, 1, 1⟩ ⟨-100, -100, 400, 400⟩))) := by
  have h0 : ((⌊(0 : ℚ)⌋ : ℚ) = 0) := by norm_num
  exact ⟨by norm_num, h0,
    nofilter_layer_rect ⟨0, 0, 1, 1⟩ ⟨-100, -100, 400, 400⟩ (by norm_num) (by norm_num)⟩

lemma fit_to_rect_contains (r b : IntRect) : IntRect.contains b (r.fit_to_rect b) := by
  unfold IntRect.contains IntRect.fit_to_rect IntRect.left IntRect.top IntRect.right
    IntRect.bottom
  refine ⟨?_, ?_, ?_, ?_⟩ <;> simp only [] <;> omega

lemma group_layer_ibbox_is_clamped (fs : List Filter) (bbox : PathBbox)
    (mb : IntRect) (ib : IntRect)
    (h : group_layer_ibbox fs bbox mb = some ib) :
    ∃ r0 : IntRect, ib = r0.fit_to_rect mb := by
  unfold group_layer_ibbox at h
  by_cases hfe : fs.isEmpty = true
  · simp only [hfe, if_true] at h
    cases hnew : IntRect.new (⌊bbox.x⌋ - 2) (⌊bbox.y⌋ - 2)
        (⌈bbox.width⌉.toNat + 4) (⌈bbox.height⌉.toNat + 4) with
    | none =>
      rw [hnew] at h
      cases h
    | some r0 =>
      rw [hnew] at h
      simp only [Option.some_inj] at h
      exact ⟨r0, h.symm⟩
  · have hfe2 : fs.isEmpty = false := by
      revert hfe
      cases fs.isEmpty <;> simp
    simp only [hfe2, Bool.false_eq_true, if_false] at h
    cases hrect : bbox.to_rect with
    | none =>
      rw [hrect] at h
      cases h
    | some r =>
      rw [hrect] at h
      dsimp only at h
      simp only [Option.some_inj] at h
      exact ⟨r.to_int_rect_round_out, h.symm⟩

lemma tree_render_unfold (t : Tree) (collab : Collab) (tf : Transform)
    (pm : Pixmap) (log : Log) (hw : 0 < pm.width) (hh : 0 < pm.height) :
    Tree.render t collab tf pm log =
      some (render_nodes t.children collab
        ⟨⟨-(pm.width : Int) * 2, -(pm.height : Int) * 2, pm.width * 4, pm.height * 4⟩⟩
        (tf.pre_concat
          (collab.view_box_to_transform t.view_box.rect t.view_box.aspect t.size))
        pm log) := by
  have hts : IntSize.new pm.width pm.height = some ⟨pm.width, pm.height⟩ := by
    unfold IntSize.new
    rw [if_pos ⟨hw, hh⟩]
  have hmb : IntRect.new (-(pm.width : Int) * 2) (-(pm.height : Int) * 2)
      (pm.width * 4) (pm.height * 4) =
      some ⟨-(pm.width : Int) * 2, -(pm.height : Int) * 2,
        pm.width * 4, pm.height * 4⟩ := by
    unfold IntRect.new
    rw [if_pos ⟨by omega, by omega⟩]
  unfold Tree.render
  rw [hts]
  dsimp only
  rw [hmb]

/-- C4: on a W×H target the region bound is the rectangle
(−2W, −2H, 4W, 4H), and every integer layer rectangle the group compositor
computes against it is contained in it, so layer and filter-region sizes are
capped at 4× the canvas in each axis. -/
theorem region_bound_invariant (t : Tree) (collab : Collab) (tf : Transform)
    (pm : Pixmap) (log : Log) (hw : 0 < pm.width) (hh : 0 < pm.height) :
    Tree.render t collab tf pm log =
      some (render_nodes t.children collab
        ⟨⟨-(pm.width : Int) * 2, -(pm.height : Int) * 2, pm.width * 4, pm.height * 4⟩⟩
        (tf.pre_concat
          (collab.view_box_to_transform t.view_box.rect t.view_box.aspect t.size))
        pm log) ∧
    (∀ (fs : List Filter) (bbox : PathBbox) (ib : IntRect),
      group_layer_ibbox fs bbox
        ⟨-(pm.width : Int) * 2, -(pm.height : Int) * 2, pm.width * 4, pm.height * 4⟩ =
        some ib →
      IntRect.contains
        ⟨-(pm.width : Int) * 2, -(pm.height : Int) * 2, pm.width * 4, pm.height * 4⟩ ib ∧
      ib.width ≤ 4 * pm.width ∧ ib.height ≤ 4 * pm.height) := by
  constructor
  · exact tree_render_unfold t collab tf pm log hw hh
  · intro fs bbox ib h
    obtain ⟨r0, rfl⟩ := group_layer_ibbox_is_clamped fs bbox _ ib h
    have hc := fit_to_rect_contains r0
      ⟨-(pm.width : Int) * 2, -(pm.height : Int) * 2, pm.width * 4, pm.height * 4⟩
    refine ⟨hc, ?_, ?_⟩ <;>
      · obtain ⟨c1, c2, c3, c4⟩ := hc
        dsimp only [IntRect.contains] at c1 c2 c3 c4
        omega

lemma render_group_sentinel_exit (g : GroupData) (children : List Node)
    (collab : Collab) (ctx : Context) (ts : Transform) (pm : Pixmap) (log : Log)
    (hs : PathBbox.fuzzy_eq g.bbox PathBbox.new_bbox = true) :
    render_group g children collab ctx ts pm log =
      (none, log.warn Warning.invalidGroupBbox) := by
  unfold render_group
  simp only [hs, if_true]

lemma render_group_degenerate_exit (g : GroupData) (children : List Node)
    (collab : Collab) (ctx : Context) (ts : Transform) (pm : Pixmap) (log : Log)
    (hs : PathBbox.fuzzy_eq g.bbox PathBbox.new_bbox = false)
    (ht : g.is_transform_only = false)
    (hd : PathBbox.transform g.bbox (ts.pre_concat g.transform) = none) :
    render_group g children collab ctx ts pm log = (none, log) := by
  unfold render_group
  simp only [hs, ht, Bool.false_eq_true, if_false, hd]

lemma render_group_ibbox_none_exit (g : GroupData) (children : List Node)
    (collab : Collab) (ctx : Context) (ts : Transform) (pm : Pixmap) (log : Log)
    (bbox : PathBbox)
    (hs : PathBbox.fuzzy_eq g.bbox PathBbox.new_bbox = false)
    (ht : g.is_transform_only = false)
    (htr : PathBbox.transform g.bbox (ts.pre_concat g.transform) = some bbox)
    (hib : group_layer_ibbox g.filters bbox ctx.max_bbox = none) :
    render_group g children collab ctx ts pm log = (none, log) := by
  unfold render_group
  simp only [hs, ht, Bool.false_eq_true, if_false, htr, hib]

lemma render_group_alloc_failure_exit (g : GroupData) (children : List Node)
    (collab : Collab) (ctx : Context) (ts : Transform) (pm : Pixmap) (log : Log)
    (bbox : PathBbox) (ibbox : IntRect)
    (hs : PathBbox.fuzzy_eq g.bbox PathBbox.new_bbox = false)
    (ht : g.is_transform_only = false)
    (htr : PathBbox.transform g.bbox (ts.pre_concat g.transform) = some bbox)
    (hib : group_layer_ibbox g.filters bbox ctx.max_bbox = some ibbox)
    (hz : ibbox.width = 0 ∨ ibbox.height = 0) :
    render_group g children collab ctx ts pm log =
      (none, log.warn Warning.groupAllocFailed) := by
  have hnew : Pixmap.new ibbox.width ibbox.height = none := by
    unfold Pixmap.new
    rw [if_neg (by omega)]
  unfold render_group
  simp only [hs, ht, Bool.false_eq_true, if_false, htr, hib, hnew]

lemma render_node_of_group_none (g : GroupData) (children : List Node)
    (collab : Collab) (ctx : Context) (ts : Transform) (pm : Pixmap)
    (log log2 : Log)
    (h : render_group g children collab ctx ts pm log = (none, log2)) :
    render_node (Node.group g children) collab ctx ts pm log = (pm, log2) := by
  unfold render_node
  rw [h]

lemma render_nodes_cons (n : Node) (rest : List Node) (collab : Collab)
    (ctx : Context) (ts : Transform) (pm : Pixmap) (log : Log) :
    render_nodes (n :: rest) collab ctx ts pm log =
      render_nodes rest collab ctx ts
        (render_node n collab ctx ts pm log).1
        (render_node n collab ctx ts pm log).2 := by
  rw [render_nodes]

/-- C5: on an empty-sentinel bbox, a degenerate (non-invertible or
zero-area) transformed bbox, or sub-layer allocation failure, render_group
exits before writing any pixel — the destination is unchanged by that
subtree — a warning is logged in the bbox and allocation cases (and only
those), and the walk continues with the remaining sibling nodes, so the
overall call still returns normally. -/
theorem error_paths_skip_subtree (g : GroupData) (children rest : List Node)
    (collab : Collab) (ctx : Context) (ts : Transform) (pm : Pixmap) (log : Log) :
    (PathBbox.fuzzy_eq g.bbox PathBbox.new_bbox = true →
      render_nodes (Node.group g children :: rest) collab ctx ts pm log =
        render_nodes rest collab ctx ts pm (log.warn Warning.invalidGroupBbox)) ∧
    (PathBbox.fuzzy_eq g.bbox PathBbox.new_bbox = false →
      g.is_transform_only = false →
      PathBbox.transform g.bbox (ts.pre_concat g.transform) = none →
      render_nodes (Node.group g children :: rest) collab ctx ts pm log =
        render_nodes rest collab ctx ts pm log) ∧
    (∀ (bbox : PathBbox) (ibbox : IntRect),
      PathBbox.fuzzy_eq g.bbox PathBbox.new_bbox = false →
      g.is_transform_only = false →
      PathBbox.transform g.bbox (ts.pre_concat g.transform) = some bbox →
      group_layer_ibbox g.filters bbox ctx.max_bbox = some ibbox →
      (ibbox.width = 0 ∨ ibbox.height = 0) →
      render_nodes (Node.group g children :: rest) collab ctx ts pm log =
        render_nodes rest collab ctx ts pm (log.warn Warning.groupAllocFailed)) ∧
    (∀ n : Node,
      render_nodes (n :: rest) collab ctx ts pm log =
        render_nodes rest collab ctx ts
          (render_node n collab ctx ts pm log).1
          (render_node n collab ctx ts pm log).2) := by
  refine ⟨?_, ?_, ?_, fun n => render_nodes_cons n rest collab ctx ts pm log⟩
  · intro hs
    rw [render_nodes_cons,
      render_node_of_group_none g children collab ctx ts pm log _
        (render_group_sentinel_exit g children collab ctx ts pm log hs)]
  · intro hs ht hd
    rw [render_nodes_cons,
      render_node_of_group_none g children collab ctx ts pm log _
        (render_group_degenerate_exit g children collab ctx ts pm log hs ht hd)]
  · intro bbox ibbox hs ht htr hib hz
    rw [render_nodes_cons,
      render_node_of_group_none g children collab ctx ts pm log _
        (render_group_alloc_failure_exit g children collab ctx ts pm log bbox ibbox
          hs ht htr hib hz)]

/-- The group of C5's witness for the sentinel case: not transform-only,
sentinel bbox. -/
def g_sent : GroupData :=
  ⟨Transform.identity, 1/2, BlendMode.sourceOver, PathBbox.new_bbox,
   none, none, [], none, none⟩

/-- The group of C5's witness for the degenerate-transform case: the local
transform is the zero matrix, so the device transform is non-invertible. -/
def g_degen : GroupData :=
  ⟨⟨0, 0, 0, 0, 0, 0⟩, 1/2, BlendMode.sourceOver, ⟨0, 0, 1, 1⟩,
   none, none, [], none, none⟩

/-- The group of C5's witness for the allocation-failure case: a filtered
group whose layer rectangle is clamped to a zero-width sliver by a far-away
region bound. -/
def g_alloc : GroupData :=
  ⟨Transform.identity, 1/2, BlendMode.sourceOver, ⟨0, 0, 1, 1⟩,
   none, none, [⟨0⟩], none, none⟩

/-- The far-away region bound used by C5's allocation-failure witness. -/
def ctx_far : Context := ⟨⟨1000, 1000, 10, 10⟩⟩

/-- Witness for C5: all three early-exit cases at concrete inputs. -/
theorem error_paths_skip_subtree_witness :
    (PathBbox.fuzzy_eq g_sent.bbox PathBbox.new_bbox = true ∧
     render_nodes [Node.group g_sent []] trivCollab ctx0 Transform.identity pm0 log0 =
       render_nodes [] trivCollab ctx0 Transform.identity pm0
         (log0.warn Warning.invalidGroupBbox)) ∧
    (PathBbox.fuzzy_eq g_degen.bbox PathBbox.new_bbox = false ∧
     g_degen.is_transform_only = false ∧
     PathBbox.transform g_degen.bbox
       (Transform.identity.pre_concat g_degen.transform) = none ∧
     render_nodes [Node.group g_degen []] trivCollab ctx0 Transform.identity pm0 log0 =
       render_nodes [] trivCollab ctx0 Transform.identity pm0 log0) ∧
    (PathBbox.fuzzy_eq g_alloc.bbox PathBbox.new_bbox = false ∧
     g_alloc.is_transform_only = false ∧
     PathBbox.transform g_alloc.bbox
       (Transform.identity.pre_concat g_alloc.transform) = some ⟨0, 0, 1, 1⟩ ∧
     group_layer_ibbox g_alloc.filters ⟨0, 0, 1, 1⟩ ctx_far.max_bbox =
       some ⟨1000, 1000, 0, 0⟩ ∧
     render_nodes [Node.group g_alloc []] trivCollab ctx_far Transform.identity pm0 log0 =
       render_nodes [] trivCollab ctx_far Transform.identity pm0
         (log0.warn Warning.groupAllocFailed)) := by
  have hs1 : PathBbox.fuzzy_eq g_sent.bbox PathBbox.new_bbox = true := fuzzy_eq_self _
  have hs2 : PathBbox.fuzzy_eq g_degen.bbox PathBbox.new_bbox = false :=
    fuzzy_eq_false_of_x_ne _ _ (by
      show (0 : ℚ) ≠ f64_max
      exact ne_of_lt f64_max_pos)
  have hs3 : PathBbox.fuzzy_eq g_alloc.bbox PathBbox.new_bbox = false :=
    fuzzy_eq_false_of_x_ne _ _ (by
      show (0 : ℚ) ≠ f64_max
      exact ne_of_lt f64_max_pos)
  have ht2 : g_degen.is_transform_only = false := by
    simp [GroupData.is_transform_only, g_degen]
  have ht3 : g_alloc.is_transform_only = false := by
    simp [GroupData.is_transform_only, g_alloc]
  have hd2 : PathBbox.transform g_degen.bbox
      (Transform.identity.pre_concat g_degen.transform) = none := by
    simp [g_degen, PathBbox.transform, Transform.pre_concat, Transform.identity,
      Transform.det]
  have htr3 : PathBbox.transform g_alloc.bbox
      (Transform.identity.pre_concat g_alloc.transform) = some ⟨0, 0, 1, 1⟩ := by
    simp [g_alloc, PathBbox.transform, Transform.pre_concat, Transform.identity,
      Transform.det, Transform.apply]
  have hib3 : group_layer_ibbox g_alloc.filters ⟨0, 0, 1, 1⟩ ctx_far.max_bbox =
      some ⟨1000, 1000, 0, 0⟩ := by
    have h0 : PathBbox.to_rect ⟨0, 0, 1, 1⟩ = some ⟨0, 0, 1, 1⟩ := by
      simp [PathBbox.to_rect]
    have hro : Rect.to_int_rect_round_out ⟨0, 0, 1, 1⟩ = ⟨0, 0, 1, 1⟩ := by
      have hc1 : ⌈(0 : ℚ) + 1⌉ = 1 := by norm_num
      have hf1 : ⌊(0 : ℚ)⌋ = 0 := by norm_num
      simp only [Rect.to_int_rect_round_out, hc1, hf1]
      decide
    have hfit : IntRect.fit_to_rect ⟨0, 0, 1, 1⟩ ⟨1000, 1000, 10, 10⟩ =
        ⟨1000, 1000, 0, 0⟩ := by
      simp only [IntRect.fit_to_rect, IntRect.left, IntRect.top, IntRect.right,
        IntRect.bottom]
      decide
    show group_layer_ibbox [⟨0⟩] ⟨0, 0, 1, 1⟩ ⟨1000, 1000, 10, 10⟩ =
      some ⟨1000, 1000, 0, 0⟩
    unfold group_layer_ibbox
    rw [show ([(⟨0⟩ : Filter)].isEmpty) = false from rfl]
    simp only [Bool.false_eq_true, if_false, h0, hro, hfit]
  exact
    ⟨⟨hs1, (error_paths_skip_subtree g_sent [] [] trivCollab ctx0 Transform.identity
        pm0 log0).1 hs1⟩,
     ⟨hs2, ht2, hd2, (error_paths_skip_subtree g_degen [] [] trivCollab ctx0
        Transform.identity pm0 log0).2.1 hs2 ht2 hd2⟩,
     ⟨hs3, ht3, htr3, hib3,
      (error_paths_skip_subtree g_alloc [] [] trivCollab ctx_far Transform.identity
        pm0 log0).2.2.1 ⟨0, 0, 1, 1⟩ ⟨1000, 1000, 0, 0⟩ hs3 ht3 htr3 hib3
        (Or.inl rfl)⟩⟩

/-- A concrete tree with no children, for entry-point witnesses. -/
def t0 : Tree := ⟨⟨100, 100⟩, ⟨⟨0, 0, 100, 100⟩, 0⟩, []⟩

/-- Witness for C4: the entry-point conjunct at a concrete 100×100 target. -/
theorem region_bound_invariant_witness :
    0 < pm0.width ∧ 0 < pm0.height ∧
    Tree.render t0 trivCollab Transform.identity pm0 log0 =
      some (render_nodes t0.children trivCollab
        ⟨⟨-(pm0.width : Int) * 2, -(pm0.height : Int) * 2,
          pm0.width * 4, pm0.height * 4⟩⟩
        (Transform.identity.pre_concat
          (trivCollab.view_box_to_transform t0.view_box.rect t0.view_box.aspect t0.size))
        pm0 log0) :=
  ⟨by decide, by decide,
   (region_bound_invariant t0 trivCollab Transform.identity pm0 log0
     (by decide) (by decide)).1⟩

/-- C6: the render entry point always returns normally. The recursive walk
is a total function by construction; in the `Option`-flow model of the entry
point the result is `some` for every genuinely constructible target buffer
(positive dimensions, the tiny_skia Pixmap invariant), and the options
unwrapped by the `.unwrap()`s — the target size and region bound in
`Tree::render`, and the buffer allocation in `prepare_filter_paint` (always
called on a layer with positive dimensions) — are all `some`. -/
theorem render_entry_total (t : Tree) (collab : Collab) (tf : Transform)
    (pm : Pixmap) (log : Log) (hw : 0 < pm.width) (hh : 0 < pm.height) :
    (IntSize.new pm.width pm.height).isSome = true ∧
    (IntRect.new (-(pm.width : Int) * 2) (-(pm.height : Int) * 2)
      (pm.width * 4) (pm.height * 4)).isSome = true ∧
    (Tree.render t collab tf pm log).isSome = true ∧
    (∀ sub : Pixmap, 0 < sub.width → 0 < sub.height →
      (Pixmap.new sub.width sub.height).isSome = true) := by
  refine ⟨?_, ?_, ?_, ?_⟩
  · unfold IntSize.new
    rw [if_pos ⟨hw, hh⟩]
    rfl
  · unfold IntRect.new
    rw [if_pos ⟨by omega, by omega⟩]
    rfl
  · rw [tree_render_unfold t collab tf pm log hw hh]
    rfl
  · intro sub h1 h2
    unfold Pixmap.new
    rw [if_pos ⟨h1, h2⟩]
    rfl

/-- Witness for C6 at a concrete tree and 100×100 target. -/
theorem render_entry_total_witness :
    0 < pm0.width ∧ 0 < pm0.height ∧
    (Tree.render t0 trivCollab Transform.identity pm0 log0).isSome = true :=
  ⟨by decide, by decide,
   (render_entry_total t0 trivCollab Transform.identity pm0 log0
     (by decide) (by decide)).2.2.1⟩

lemma prepare_filter_paint_some (p : Paint) (ctx : Context) (pm : Pixmap)
    (hw : 0 < pm.width) (hh : 0 < pm.height) :
    prepare_filter_paint (some p) ctx pm =
      some (render_fill_path
        (filter_paint_fill_path p ⟨0, 0, (pm.width : ℚ), (pm.height : ℚ)⟩)
        BlendMode.sourceOver ctx Transform.default
        (Pixmap.blank pm.width pm.height)) := by
  have hwq : (0 : ℚ) < (pm.width : ℚ) := by exact_mod_cast hw
  have hhq : (0 : ℚ) < (pm.height : ℚ) := by exact_mod_cast hh
  have hrect : Rect.from_xywh 0 0 (pm.width : ℚ) (pm.height : ℚ) =
      some ⟨0, 0, (pm.width : ℚ), (pm.height : ℚ)⟩ := by
    unfold Rect.from_xywh
    rw [if_pos ⟨hwq, hhq⟩]
  have hnew : Pixmap.new pm.width pm.height =
      some (Pixmap.blank pm.width pm.height) := by
    unfold Pixmap.new
    rw [if_pos ⟨hw, hh⟩]
  unfold prepare_filter_paint
  rw [hnew, hrect]
  rfl

lemma render_fill_path_full_rect (p : Paint) (ctx : Context) (w h : Nat)
    (x y : Nat) (hx : x < w) (hy : y < h) :
    (render_fill_path (filter_paint_fill_path p ⟨0, 0, (w : ℚ), (h : ℚ)⟩)
      BlendMode.sourceOver ctx Transform.default
      (Pixmap.blank w h)).data x y = ⟨p.color, 1⟩ := by
  have hx1 : (x : ℚ) + 1 ≤ (w : ℚ) := by exact_mod_cast Nat.succ_le_of_lt hx
  have hy1 : (y : ℚ) + 1 ≤ (h : ℚ) := by exact_mod_cast Nat.succ_le_of_lt hy
  have hx0 : (0 : ℚ) ≤ (x : ℚ) := Nat.cast_nonneg x
  have hy0 : (0 : ℚ) ≤ (y : ℚ) := Nat.cast_nonneg y
  simp only [render_fill_path, filter_paint_fill_path, PathBuilder.from_rect,
    Transform.pre_concat, Transform.default, Transform.identity, Transform.apply,
    Pixmap.blank, Pixel.transparent]
  norm_num
  split_ifs with hc
  · simp only [composite, Pixel.mk.injEq]
    constructor <;> ring
  · exfalso
    exact hc ⟨hx, hy, hx1, hy1⟩

/-- C9: prepare_filter_paint returns none exactly when no paint is given;
given a paint P over a W×H layer it returns a fresh W×H buffer, built with
the winding fill rule, whose every pixel is P at full alpha, independent of
the layer's pre-filter pixel content (only the layer's dimensions enter). -/
theorem prepare_filter_paint_spec (ctx : Context) (pm : Pixmap) (p : Paint)
    (hw : 0 < pm.width) (hh : 0 < pm.height) :
    (∀ q : Option Paint, prepare_filter_paint q ctx pm = none ↔ q = none) ∧
    ((filter_paint_fill_path p ⟨0, 0, (pm.width : ℚ), (pm.height : ℚ)⟩).rule =
      FillRule.winding) ∧
    (∃ buf : Pixmap, prepare_filter_paint (some p) ctx pm = some buf ∧
      buf.width = pm.width ∧ buf.height = pm.height ∧
      ∀ x y : Nat, x < pm.width → y < pm.height →
        buf.data x y = ⟨p.color, 1⟩) ∧
    (∀ pm2 : Pixmap, pm2.width = pm.width → pm2.height = pm.height →
      prepare_filter_paint (some p) ctx pm2 = prepare_filter_paint (some p) ctx pm) := by
  refine ⟨?_, rfl, ?_, ?_⟩
  · intro q
    cases q with
    | none =>
      constructor
      · intro _
        rfl
      · intro _
        rfl
    | some p2 =>
      rw [prepare_filter_paint_some p2 ctx pm hw hh]
      constructor
      · intro hcontra
        cases hcontra
      · intro hcontra
        cases hcontra
  · refine ⟨_, prepare_filter_paint_some p ctx pm hw hh, rfl, rfl, ?_⟩
    intro x y hx hy
    exact render_fill_path_full_rect p ctx pm.width pm.height x y hx hy
  · intro pm2 h1 h2
    rw [prepare_filter_paint_some p ctx pm hw hh,
      prepare_filter_paint_some p ctx pm2 (h1 ▸ hw) (h2 ▸ hh), h1, h2]

/-- Witness for C9: the none-iff conjunct at a concrete paint and target. -/
theorem prepare_filter_paint_spec_witness :
    0 < pm0.width ∧ 0 < pm0.height ∧
    (prepare_filter_paint none ctx0 pm0 = none ↔ (none : Option Paint) = none) ∧
    (prepare_filter_paint (some ⟨5⟩) ctx0 pm0 = none ↔
      (some (⟨5⟩ : Paint) : Option Paint) = none) :=
  ⟨by decide, by decide,
   (prepare_filter_paint_spec ctx0 pm0 ⟨5⟩ (by decide) (by decide)).1 none,
   (prepare_filter_paint_spec ctx0 pm0 ⟨5⟩ (by decide) (by decide)).1 (some ⟨5⟩)⟩

/-- C7: for an isolated group, the layer receives the effects in order —
each filter in declared list order (with the synthesized fill/stroke sources
as auxiliary inputs), then the clip path, then the mask — and the group's
opacity and blend mode are applied exactly once, by the single draw_pixmap
composite of the finished layer onto the destination with nearest-neighbor
sampling and the identity transform; the children are rendered into the
layer without them. -/
theorem isolated_effect_order (g : GroupData) (children : List Node)
    (collab : Collab) (ctx : Context) (ts : Transform) (pm : Pixmap) (log : Log)
    (bbox : PathBbox) (ibbox : IntRect)
    (hs : PathBbox.fuzzy_eq g.bbox PathBbox.new_bbox = false)
    (ht : g.is_transform_only = false)
    (htr : PathBbox.transform g.bbox (ts.pre_concat g.transform) = some bbox)
    (hib : group_layer_ibbox g.filters bbox ctx.max_bbox = some ibbox)
    (hw : 0 < ibbox.width) (hh : 0 < ibbox.height) :
    render_group g children collab ctx ts pm log =
      (let transform2 :=
        (sub_pixel_shift bbox ibbox).pre_concat (ts.pre_concat g.transform)
       let r := render_nodes children collab ctx transform2
         (Pixmap.blank ibbox.width ibbox.height) log.allocLayer
       let afterFilters :=
         if g.filters.isEmpty then r.1
         else
           g.filters.foldl
             (fun acc f => collab.filter_apply f transform2
               (prepare_filter_paint g.filter_fill ctx r.1)
               (prepare_filter_paint g.filter_stroke ctx r.1) acc)
             r.1
       let afterClip :=
         match g.clip_path with
         | some cp => collab.clip_apply cp transform2 afterFilters
         | none => afterFilters
       let afterMask :=
         match g.mask with
         | some m => collab.mask_apply m ctx transform2 afterClip
         | none => afterClip
       (some (pm.draw_pixmap ibbox.x ibbox.y afterMask
          ⟨g.opacity, g.blend_mode, FilterQuality.nearest⟩ Transform.identity none),
        r.2)) := by
  have hnew : Pixmap.new ibbox.width ibbox.height =
      some (Pixmap.blank ibbox.width ibbox.height) := by
    unfold Pixmap.new
    rw [if_pos ⟨hw, hh⟩]
  unfold render_group
  simp only [hs, ht, Bool.false_eq_true, if_false, htr, hib, hnew]

/-- The isolated group of C7's witness: translucent, non-Normal blend, two
filters, clip, mask, and both synthesized filter paints. -/
def g_eff : GroupData :=
  ⟨Transform.identity, 1/2, BlendMode.other 3, ⟨0, 0, 1, 1⟩,
   some ⟨0⟩, some ⟨0⟩, [⟨1⟩, ⟨2⟩], some ⟨7⟩, some ⟨8⟩⟩

/-- Witness for C7 at the concrete isolated group. -/
theorem isolated_effect_order_witness :
    PathBbox.fuzzy_eq g_eff.bbox PathBbox.new_bbox = false ∧
    g_eff.is_transform_only = false ∧
    PathBbox.transform g_eff.bbox
      (Transform.identity.pre_concat g_eff.transform) = some ⟨0, 0, 1, 1⟩ ∧
    group_layer_ibbox g_eff.filters ⟨0, 0, 1, 1⟩ ctx0.max_bbox =
      some ⟨0, 0, 1, 1⟩ ∧
    render_group g_eff [] trivCollab ctx0 Transform.identity pm0 log0 =
      (let transform2 := (sub_pixel_shift ⟨0, 0, 1, 1⟩
         ⟨0, 0, 1, 1⟩).pre_concat (Transform.identity.pre_concat g_eff.transform)
       let r := render_nodes [] trivCollab ctx0 transform2
         (Pixmap.blank 1 1) log0.allocLayer
       let afterFilters :=
         if g_eff.filters.isEmpty then r.1
         else
           g_eff.filters.foldl
             (fun acc f => trivCollab.filter_apply f transform2
               (prepare_filter_paint g_eff.filter_fill ctx0 r.1)
               (prepare_filter_paint g_eff.filter_stroke ctx0 r.1) acc)
             r.1
       let afterClip :=
         match g_eff.clip_path with
         | some cp => trivCollab.clip_apply cp transform2 afterFilters
         | none => afterFilters
       let afterMask :=
         match g_eff.mask with
         | some m => trivCollab.mask_apply m ctx0 transform2 afterClip
         | none => afterClip
       (some (pm0.draw_pixmap 0 0 afterMask
          ⟨g_eff.opacity, g_eff.blend_mode, FilterQuality.nearest⟩
          Transform.identity none),
        r.2)) := by
  have hs : PathBbox.fuzzy_eq g_eff.bbox PathBbox.new_bbox = false :=
    fuzzy_eq_false_of_x_ne _ _ (by
      show (0 : ℚ) ≠ f64_max
      exact ne_of_lt f64_max_pos)
  have ht : g_eff.is_transform_only = false := by
    simp [GroupData.is_transform_only, g_eff]
  have htr : PathBbox.transform g_eff.bbox
      (Transform.identity.pre_concat g_eff.transform) = some ⟨0, 0, 1, 1⟩ := by
    simp [g_eff, PathBbox.transform, Transform.pre_concat, Transform.identity,
      Transform.det, Transform.apply]
  have hib : group_layer_ibbox g_eff.filters ⟨0, 0, 1, 1⟩ ctx0.max_bbox =
      some ⟨0, 0, 1, 1⟩ := by
    have h0 : PathBbox.to_rect ⟨0, 0, 1, 1⟩ = some ⟨0, 0, 1, 1⟩ := by
      simp [PathBbox.to_rect]
    have hro : Rect.to_int_rect_round_out ⟨0, 0, 1, 1⟩ = ⟨0, 0, 1, 1⟩ := by
      have hc1 : ⌈(0 : ℚ) + 1⌉ = 1 := by norm_num
      have hf1 : ⌊(0 : ℚ)⌋ = 0 := by norm_num
      simp only [Rect.to_int_rect_round_out, hc1, hf1]
      decide
    have hfit : IntRect.fit_to_rect ⟨0, 0, 1, 1⟩ ⟨-200, -200, 800, 800⟩ =
        ⟨0, 0, 1, 1⟩ := by
      simp only [IntRect.fit_to_rect, IntRect.left, IntRect.top, IntRect.right,
        IntRect.bottom]
      decide
    show group_layer_ibbox [⟨1⟩, ⟨2⟩] ⟨0, 0, 1, 1⟩ ⟨-200, -200, 800, 800⟩ =
      some ⟨0, 0, 1, 1⟩
    unfold group_layer_ibbox
    rw [show ([(⟨1⟩ : Filter), ⟨2⟩].isEmpty) = false from rfl]
    simp only [Bool.false_eq_true, if_false, h0, hro, hfit]
  exact ⟨hs, ht, htr, hib,
    isolated_effect_order g_eff [] trivCollab ctx0 Transform.identity pm0 log0
      ⟨0, 0, 1, 1⟩ ⟨0, 0, 1, 1⟩ hs ht htr hib (by decide) (by decide)⟩

/-- C8: the sub-pixel shift is the pure integer translation by
(−ibbox.x, −ibbox.y) — in the exact-arithmetic model of the f32 math the two
subtractions cancel — and it maps the transformed bbox's top-left to
(bbox.x − ibbox.x, bbox.y − ibbox.y), preserving the fractional offset
relative to the integer rectangle's top-left. -/
theorem sub_pixel_shift_exact (bbox : PathBbox) (ibbox : IntRect) :
    sub_pixel_shift bbox ibbox =
      Transform.from_translate (-(ibbox.x : ℚ)) (-(ibbox.y : ℚ)) ∧
    (sub_pixel_shift bbox ibbox).apply (bbox.x, bbox.y) =
      (bbox.x - (ibbox.x : ℚ), bbox.y - (ibbox.y : ℚ)) := by
  have hdx : ∀ a b : ℚ, a - (a - b) = b := by intro a b; ring
  constructor
  · simp only [sub_pixel_shift, Transform.from_translate, hdx]
  · simp only [sub_pixel_shift, Transform.from_translate, Transform.apply, hdx,
      Prod.mk.injEq]
    constructor <;> ring

/-- C10: the empty-sentinel bbox check runs before the transform-only fast
path: a transform-only group whose bbox is the sentinel renders none of its
children, logs the warning, and leaves the destination untouched. -/
theorem sentinel_checked_before_fast_path (g : GroupData) (children : List Node)
    (collab : Collab) (ctx : Context) (ts : Transform) (pm : Pixmap) (log : Log)
    (hfast : g.is_transform_only = true)
    (hsent : PathBbox.fuzzy_eq g.bbox PathBbox.new_bbox = true) :
    render_group g children collab ctx ts pm log =
      (none, log.warn Warning.invalidGroupBbox) ∧
    render_node (Node.group g children) collab ctx ts pm log =
      (pm, log.warn Warning.invalidGroupBbox) := by
  have h : render_group g children collab ctx ts pm log =
      (none, log.warn Warning.invalidGroupBbox) := by
    unfold render_group
    simp only [hsent, if_true]
  refine ⟨h, ?_⟩
  unfold render_node
  rw [h]

/-- Witness for C10 at a concrete transform-only group carrying the sentinel
bbox, with one fill-path child that is therefore never rendered. -/
theorem sentinel_checked_before_fast_path_witness :
    (GroupData.mk Transform.identity 1 BlendMode.sourceOver PathBbox.new_bbox
        none none [] none none).is_transform_only = true ∧
    PathBbox.fuzzy_eq
      (GroupData.mk Transform.identity 1 BlendMode.sourceOver PathBbox.new_bbox
        none none [] none none).bbox PathBbox.new_bbox = true ∧
    (render_group
        (GroupData.mk Transform.identity 1 BlendMode.sourceOver PathBbox.new_bbox
          none none [] none none)
        [Node.fillPath ⟨Transform.identity, ⟨1⟩, FillRule.winding, true,
          Path.rect ⟨0, 0, 1, 1⟩⟩]
        trivCollab ctx0 Transform.identity pm0 log0 =
      (none, log0.warn Warning.invalidGroupBbox) ∧
     render_node (Node.group
        (GroupData.mk Transform.identity 1 BlendMode.sourceOver PathBbox.new_bbox
          none none [] none none)
        [Node.fillPath ⟨Transform.identity, ⟨1⟩, FillRule.winding, true,
          Path.rect ⟨0, 0, 1, 1⟩⟩])
        trivCollab ctx0 Transform.identity pm0 log0 =
      (pm0, log0.warn Warning.invalidGroupBbox)) :=
  ⟨by simp [GroupData.is_transform_only],
   fuzzy_eq_self _,
   sentinel_checked_before_fast_path _ _ _ _ _ _ _
     (by simp [GroupData.is_transform_only]) (fuzzy_eq_self _)⟩

end Resvg
